import Mathlib

/-!
Shallow embedding of the audio-analysis core of the music-viz1 repository.

Sources embedded:
- `FrequencyBands.js` : band table, `getBinRange`, `calculateAllBinRanges`.
- `AudioAnalyzer.js`  : energy extraction, weighted combination, smoothing,
  history, peak detection, the per-frame `update` cycle, `getBandEnergy`.

JavaScript numbers are modelled as exact rationals (`ℚ`).  All concrete
inputs used in the theorems below are chosen so that the double-precision
evaluation in JavaScript and the rational evaluation agree (in particular
every `floor`/`ceil` result is far from an integer boundary, and the one
division-by-zero case used gives the same bin range under IEEE semantics,
where `x / 0 = Infinity` and `min / Infinity = 0`, as under the rational
convention `x / 0 = 0`).
-/

namespace MusicViz

/-- RGB colour record carried by each band (display-only). -/
structure RGB where
  r : ℕ
  g : ℕ
  b : ℕ
deriving DecidableEq

/-- A frequency band from `FrequencyBands.js`: `{name, min, max, color}`. -/
structure Band where
  name : String
  min : ℚ
  max : ℚ
  color : RGB
deriving DecidableEq

/-- Band `FrequencyBands.SUB_BASS`. -/
def SUB_BASS : Band := ⟨"Sub Bass", 20, 60, ⟨128, 0, 255⟩⟩

/-- Band `FrequencyBands.BASS`. -/
def BASS : Band := ⟨"Bass", 60, 250, ⟨255, 0, 100⟩⟩

/-- Band `FrequencyBands.DRUMS_LOW`. -/
def DRUMS_LOW : Band := ⟨"Drums Low", 60, 200, ⟨255, 50, 50⟩⟩

/-- Band `FrequencyBands.DRUMS_MID`. -/
def DRUMS_MID : Band := ⟨"Drums Mid", 200, 2000, ⟨255, 100, 50⟩⟩

/-- Band `FrequencyBands.DRUMS_HIGH`. -/
def DRUMS_HIGH : Band := ⟨"Drums High", 2000, 8000, ⟨255, 200, 50⟩⟩

/-- Band `FrequencyBands.VOCALS_LOW`. -/
def VOCALS_LOW : Band := ⟨"Vocals Low", 80, 300, ⟨50, 200, 255⟩⟩

/-- Band `FrequencyBands.VOCALS_MID`. -/
def VOCALS_MID : Band := ⟨"Vocals Mid", 300, 2000, ⟨100, 150, 255⟩⟩

/-- Band `FrequencyBands.VOCALS_HIGH`. -/
def VOCALS_HIGH : Band := ⟨"Vocals High", 2000, 8000, ⟨150, 100, 255⟩⟩

/-- Band `FrequencyBands.INSTRUMENTS_LOW`. -/
def INSTRUMENTS_LOW : Band := ⟨"Instruments Low", 80, 400, ⟨50, 255, 100⟩⟩

/-- Band `FrequencyBands.INSTRUMENTS_MID`. -/
def INSTRUMENTS_MID : Band := ⟨"Instruments Mid", 400, 2000, ⟨100, 255, 150⟩⟩

/-- Band `FrequencyBands.INSTRUMENTS_HIGH`. -/
def INSTRUMENTS_HIGH : Band := ⟨"Instruments High", 2000, 6000, ⟨150, 255, 200⟩⟩

/-- Band `FrequencyBands.AIR`. -/
def AIR : Band := ⟨"Air", 8000, 20000, ⟨255, 255, 255⟩⟩

/-- List of `Object.entries(FrequencyBands)` in declaration order. -/
def allBands : List (String × Band) :=
  [("SUB_BASS", SUB_BASS), ("BASS", BASS),
   ("DRUMS_LOW", DRUMS_LOW), ("DRUMS_MID", DRUMS_MID), ("DRUMS_HIGH", DRUMS_HIGH),
   ("VOCALS_LOW", VOCALS_LOW), ("VOCALS_MID", VOCALS_MID), ("VOCALS_HIGH", VOCALS_HIGH),
   ("INSTRUMENTS_LOW", INSTRUMENTS_LOW), ("INSTRUMENTS_MID", INSTRUMENTS_MID),
   ("INSTRUMENTS_HIGH", INSTRUMENTS_HIGH), ("AIR", AIR)]

/-- Weights `VisualizerGroups.DRUMS.weights`. -/
def DRUMS_weights : List ℚ := [0.5, 0.3, 0.2]

/-- Weights `VisualizerGroups.VOCALS.weights`. -/
def VOCALS_weights : List ℚ := [0.2, 0.5, 0.3]

/-- Weights `VisualizerGroups.BASS.weights`. -/
def BASS_weights : List ℚ := [0.4, 0.6]

/-- Weights `VisualizerGroups.HIGHS.weights`. -/
def HIGHS_weights : List ℚ := [0.6, 0.4]

/-- Bin index interval `{start, end}` returned by `getBinRange`.
The JS field `end` is a Lean keyword, so it is called `endIdx` here. -/
structure BinRange where
  start : ℤ
  endIdx : ℤ
deriving DecidableEq

/-- Function `getBinRange(band, sampleRate, fftSize)` from `FrequencyBands.js`:
`binFrequency = sampleRate / fftSize`,
`start = Math.floor(band.min / binFrequency)`,
`end = Math.ceil(band.max / binFrequency)`.  No validation, no clamping. -/
def getBinRange (band : Band) (sampleRate : ℚ) (fftSize : ℚ) : BinRange :=
  let binFrequency := sampleRate / fftSize
  { start := ⌊band.min / binFrequency⌋
    endIdx := ⌈band.max / binFrequency⌉ }

/-- Function `calculateAllBinRanges(sampleRate, fftSize)`: the `Map` of band name to
bin range, modelled as an association list in insertion order. -/
def calculateAllBinRanges (sampleRate : ℚ) (fftSize : ℚ) : List (String × BinRange) :=
  allBands.map (fun nb => (nb.1, getBinRange nb.2 sampleRate fftSize))

/-- Modelled from the spec: the spec (section 7, "Malformed configuration")
demands that bin mapping "fail fast at bin-mapping time with a clear
configuration error" for zero/negative transform size or sample rate ≤ 0.
No such validation exists anywhere in the repository; this definition
follows the spec's words so it can be compared with the source's
`getBinRange`. -/
def getBinRangeChecked (band : Band) (sampleRate : ℚ) (fftSize : ℚ) : Option BinRange :=
  if fftSize ≤ 0 ∨ sampleRate ≤ 0 then none
  else some (getBinRange band sampleRate fftSize)

example : getBinRange SUB_BASS 44100 1024 = ⟨0, 2⟩ := by
  simp only [getBinRange, BinRange.mk.injEq, SUB_BASS]
  norm_num [Int.floor_eq_iff, Int.ceil_eq_iff]

example : getBinRange SUB_BASS 44100 0 = ⟨0, 0⟩ := by
  simp only [getBinRange, BinRange.mk.injEq, SUB_BASS]
  norm_num

/-!
## AudioAnalyzer.js

The spectrum is the `fft.analyze()` result, modelled as a `List ℚ`.
The loop `for (let i = range.start; i < range.end && i < spectrum.length; i++)`
visits exactly the integer indices in `[start, min(end, length))`; the model
assumes `0 ≤ start`, which holds for every range the table produces with a
positive configuration (JavaScript would read `undefined` and produce `NaN`
for a negative index).
-/

/-- Sum of `spectrum[i]` over the loop range `[s, min e spectrum.length)`. -/
def spectrumSum (spectrum : List ℚ) (s e : ℤ) : ℚ :=
  ∑ i in Finset.Ico s (min e (spectrum.length : ℤ)), spectrum.getD i.toNat 0

/-- Number of iterations of the same loop (the `count` accumulated in
`_getAverageEnergy`). -/
def spectrumCount (spectrum : List ℚ) (s e : ℤ) : ℕ :=
  (min e (spectrum.length : ℤ) - s).toNat

/-- The range-dependent part of `AudioAnalyzer._getAverageEnergy`:
sum the clamped loop range, then `count > 0 ? sum / count / 255 : 0`. -/
def averageEnergy (spectrum : List ℚ) (r : BinRange) : ℚ :=
  let sum := spectrumSum spectrum r.start r.endIdx
  let count := spectrumCount spectrum r.start r.endIdx
  if 0 < count then sum / count / 255 else 0

/-- Method `AudioAnalyzer._getAverageEnergy(spectrum, bandName)`: look the band up
in the precomputed bin-range map, `return 0` if absent. -/
def getAverageEnergy (binRanges : List (String × BinRange)) (spectrum : List ℚ)
    (bandName : String) : ℚ :=
  match binRanges.lookup bandName with
  | none => 0
  | some r => averageEnergy spectrum r

/-- Method `AudioAnalyzer._calculateWeightedEnergy(energies, weights)`:
`sum += energies[i] * weights[i]` for `i < energies.length`. -/
def calculateWeightedEnergy (energies weights : List ℚ) : ℚ :=
  ∑ i in Finset.range energies.length, energies.getD i 0 * weights.getD i 0

/-- Constant `this.peakThreshold` from the constructor. -/
def peakThreshold : ℚ := 0.7

/-- Constant `this.peakDecay` from the constructor. -/
def peakDecay : ℚ := 0.95

/-- Constant `this.historySize` from the constructor (43). -/
def historySize : ℕ := 43

/-- The `smoothFactor` local constant in `update`. -/
def smoothFactor : ℚ := 0.3

/-- One smoothed-energy update line of `update`:
`this.smoothedEnergy[cat] += (combined - this.smoothedEnergy[cat]) * smoothFactor`. -/
def smoothStep (prev raw : ℚ) : ℚ := prev + (raw - prev) * smoothFactor

/-- Per-category peak state `this.peaks[cat] = {value, isPeak}`. -/
structure PeakState where
  value : ℚ
  isPeak : Bool
deriving DecidableEq

/-- One iteration of the `_detectPeaks` loop body for a single category:
decay `value` by `peakDecay`, then trigger when the current smoothed energy
exceeds both the decayed value and `peakThreshold`. -/
def detectPeakStep (p : PeakState) (current : ℚ) : PeakState :=
  let decayed := p.value * peakDecay
  if current > decayed ∧ current > peakThreshold then
    { value := current, isPeak := true }
  else
    { value := decayed, isPeak := false }

/-- Record shape of `this.energyCache.drums` and `this.energyCache.vocals`:
`{low, mid, high, combined}`. -/
structure Cache3 where
  low : ℚ
  mid : ℚ
  high : ℚ
  combined : ℚ
deriving DecidableEq

/-- Record `this.energyCache.bass`: `{sub, main, combined}`. -/
structure CacheBass where
  sub : ℚ
  main : ℚ
  combined : ℚ
deriving DecidableEq

/-- Record `this.energyCache.highs`: `{instruments, air, combined}`. -/
structure CacheHighs where
  instruments : ℚ
  air : ℚ
  combined : ℚ
deriving DecidableEq

/-- Record `this.energyCache`. -/
structure EnergyCache where
  drums : Cache3
  vocals : Cache3
  bass : CacheBass
  highs : CacheHighs
deriving DecidableEq

/-- Record `this.smoothedEnergy`. -/
structure SmoothedEnergy where
  drums : ℚ
  vocals : ℚ
  bass : ℚ
  highs : ℚ
deriving DecidableEq

/-- Record `this.peaks`. -/
structure Peaks where
  drums : PeakState
  vocals : PeakState
  bass : PeakState
  highs : PeakState
deriving DecidableEq

/-- The mutable state of an `AudioAnalyzer` instance that the per-frame
`update` cycle touches.  `hasFFT` models `this.fft !== null`; `binRanges`
models the map computed by `init` (the source keeps `null` before `init`,
and `this.fft !== null` implies the map is present, so the pre-`init`
`null` is folded into `hasFFT = false`). -/
structure AnalyzerState where
  isListening : Bool
  hasFFT : Bool
  binRanges : List (String × BinRange)
  energyCache : EnergyCache
  smoothedEnergy : SmoothedEnergy
  peaks : Peaks
  historyIndex : ℕ
  historyDrums : List ℚ
  historyBass : List ℚ
deriving DecidableEq

/-- Method `AudioAnalyzer.update()` as a function of the state and the spectrum
snapshot returned by `this.fft.analyze()` this frame.  Mirrors the method
body in order: guard, energy cache, weighted combination, smoothing,
`_updateHistory`, `_detectPeaks`. -/
def update (s : AnalyzerState) (spectrum : List ℚ) : AnalyzerState :=
  if !s.hasFFT || !s.isListening then s
  else
    let dLow := getAverageEnergy s.binRanges spectrum "DRUMS_LOW"
    let dMid := getAverageEnergy s.binRanges spectrum "DRUMS_MID"
    let dHigh := getAverageEnergy s.binRanges spectrum "DRUMS_HIGH"
    let dCombined := calculateWeightedEnergy [dLow, dMid, dHigh] DRUMS_weights
    let vLow := getAverageEnergy s.binRanges spectrum "VOCALS_LOW"
    let vMid := getAverageEnergy s.binRanges spectrum "VOCALS_MID"
    let vHigh := getAverageEnergy s.binRanges spectrum "VOCALS_HIGH"
    let vCombined := calculateWeightedEnergy [vLow, vMid, vHigh] VOCALS_weights
    let bSub := getAverageEnergy s.binRanges spectrum "SUB_BASS"
    let bMain := getAverageEnergy s.binRanges spectrum "BASS"
    let bCombined := calculateWeightedEnergy [bSub, bMain] BASS_weights
    let hInstruments := getAverageEnergy s.binRanges spectrum "INSTRUMENTS_HIGH"
    let hAir := getAverageEnergy s.binRanges spectrum "AIR"
    let hCombined := calculateWeightedEnergy [hInstruments, hAir] HIGHS_weights
    let sDrums := smoothStep s.smoothedEnergy.drums dCombined
    let sVocals := smoothStep s.smoothedEnergy.vocals vCombined
    let sBass := smoothStep s.smoothedEnergy.bass bCombined
    let sHighs := smoothStep s.smoothedEnergy.highs hCombined
    { s with
      energyCache :=
        { drums := ⟨dLow, dMid, dHigh, dCombined⟩
          vocals := ⟨vLow, vMid, vHigh, vCombined⟩
          bass := ⟨bSub, bMain, bCombined⟩
          highs := ⟨hInstruments, hAir, hCombined⟩ }
      smoothedEnergy := ⟨sDrums, sVocals, sBass, sHighs⟩
      peaks :=
        { drums := detectPeakStep s.peaks.drums sDrums
          vocals := detectPeakStep s.peaks.vocals sVocals
          bass := detectPeakStep s.peaks.bass sBass
          highs := detectPeakStep s.peaks.highs sHighs }
      historyIndex := (s.historyIndex + 1) % historySize
      historyDrums := s.historyDrums.set s.historyIndex dCombined
      historyBass := s.historyBass.set s.historyIndex bCombined }

/-- Method `AudioAnalyzer.getBandEnergy(bandName)`: `0` without an FFT or bin map,
`0` for an unknown band, otherwise the clamped sum divided by the
UNclamped width `range.end - range.start` (no 255 normalisation). -/
def getBandEnergy (s : AnalyzerState) (spectrum : List ℚ) (bandName : String) : ℚ :=
  if !s.hasFFT then 0
  else
    match s.binRanges.lookup bandName with
    | none => 0
    | some r =>
      let sum := spectrumSum spectrum r.start r.endIdx
      let count : ℤ := r.endIdx - r.start
      if 0 < count then sum / (count : ℚ) else 0

/-- The analyzer state built by the `AudioAnalyzer` constructor (with the
`null` fields folded as documented on `AnalyzerState`). -/
def initialState : AnalyzerState where
  isListening := false
  hasFFT := false
  binRanges := []
  energyCache :=
    { drums := ⟨0, 0, 0, 0⟩, vocals := ⟨0, 0, 0, 0⟩
      bass := ⟨0, 0, 0⟩, highs := ⟨0, 0, 0⟩ }
  smoothedEnergy := ⟨0, 0, 0, 0⟩
  peaks := ⟨⟨0, false⟩, ⟨0, false⟩, ⟨0, false⟩, ⟨0, false⟩⟩
  historyIndex := 0
  historyDrums := List.replicate historySize 0
  historyBass := List.replicate historySize 0

/-- States reachable from `s` by repeatedly invoking the per-frame cycle
with arbitrary spectrum snapshots. -/
inductive Reachable : AnalyzerState → AnalyzerState → Prop where
  | refl (s : AnalyzerState) : Reachable s s
  | step (s t : AnalyzerState) (spectrum : List ℚ) :
      Reachable s t → Reachable s (update t spectrum)

/-- The per-category peak/energy publication invariant checked in claim C9. -/
def PeakInvariant (s : AnalyzerState) : Prop :=
  (s.peaks.drums.isPeak = true →
    s.peaks.drums.value = s.smoothedEnergy.drums ∧ s.smoothedEnergy.drums > peakThreshold) ∧
  (s.peaks.vocals.isPeak = true →
    s.peaks.vocals.value = s.smoothedEnergy.vocals ∧ s.smoothedEnergy.vocals > peakThreshold) ∧
  (s.peaks.bass.isPeak = true →
    s.peaks.bass.value = s.smoothedEnergy.bass ∧ s.smoothedEnergy.bass > peakThreshold) ∧
  (s.peaks.highs.isPeak = true →
    s.peaks.highs.value = s.smoothedEnergy.highs ∧ s.smoothedEnergy.highs > peakThreshold)

/-!
## Theorems for the claims
-/

/-- C3: one peak-detection step for a category first decays `peakValue` by
the factor 0.95 unconditionally, then triggers exactly when the current
smoothed energy exceeds both the decayed value and the threshold 0.7; when
triggered the new state is `{value := current, isPeak := true}` and
otherwise it is `{value := decayed value, isPeak := false}`. -/
theorem C3_detect_peak_step (p : PeakState) (c : ℚ) :
    ((c > p.value * (0.95 : ℚ) ∧ c > (0.7 : ℚ)) →
      detectPeakStep p c = ⟨c, true⟩) ∧
    (¬(c > p.value * (0.95 : ℚ) ∧ c > (0.7 : ℚ)) →
      detectPeakStep p c = ⟨p.value * (0.95 : ℚ), false⟩) := by
  constructor <;> intro h
  · rw [detectPeakStep]
    rw [if_pos]
    exact (by simpa [peakDecay, peakThreshold] using h)
  · rw [detectPeakStep]
    rw [if_neg (by simpa [peakDecay, peakThreshold] using h)]
    rw [peakDecay]

/-- Witness for C3 at concrete inputs: from `{value := 0, isPeak := false}`
with current energy `0.9` the step triggers, and from
`{value := 1, isPeak := true}` with current energy `0.5` it does not. -/
theorem C3_witness :
    detectPeakStep ⟨0, false⟩ 0.9 = ⟨(0.9 : ℚ), true⟩ ∧
    detectPeakStep ⟨1, true⟩ 0.5 = ⟨(1 : ℚ) * (0.95 : ℚ), false⟩ :=
  ⟨by
    have h := (C3_detect_peak_step ⟨0, false⟩ 0.9).1 (by norm_num)
    simpa using h,
   by
    have h := (C3_detect_peak_step ⟨1, true⟩ 0.5).2 (by norm_num)
    simpa using h⟩

/-- Counterexample to C1: feeding the smoothed-energy sequence
`[0.9, 0.9, 0.9]` to the peak detector from `{value := 0, isPeak := false}`,
`isPeak` is `true` again on cycle 2 (the claim says it is `false`): the
decay runs before the comparison, so the decayed `peakValue`
`0.9 * 0.95 = 0.855` is already below the current energy `0.9`. -/
theorem C1_counterexample :
    (detectPeakStep (detectPeakStep ⟨0, false⟩ 0.9) 0.9).isPeak = true := by
  norm_num [detectPeakStep, peakDecay, peakThreshold]

/-- C1 amended: for the smoothed-energy input sequence `[0.9, 0.9, 0.9]`
starting from `peakValue = 0`, `isPeak = false`, with threshold 0.7 and
decay 0.95, `isPeak` is `true` on all three cycles: the decay runs before
the comparison, so the decayed `peakValue` (`0.9 * 0.95 = 0.855`) is below
the constant current energy `0.9` every cycle and the peak re-fires; the
debounce suppresses re-firing only while the current energy stays below
the decayed previous peak value. -/
theorem C1_amended_peak_refires_every_cycle :
    detectPeakStep ⟨0, false⟩ 0.9 = ⟨0.9, true⟩ ∧
    detectPeakStep (detectPeakStep ⟨0, false⟩ 0.9) 0.9 = ⟨0.9, true⟩ ∧
    detectPeakStep (detectPeakStep (detectPeakStep ⟨0, false⟩ 0.9) 0.9) 0.9
      = ⟨0.9, true⟩ := by
  norm_num [detectPeakStep, peakDecay, peakThreshold]

/-- C5: for every band with `0 ≤ minHz < maxHz` and positive sample rate
and transform size, `getBinRange` returns
`{start := ⌊min / (sampleRate / fftSize)⌋, end := ⌈max / (sampleRate / fftSize)⌉}`
with no clamping, and on the concrete input
`mapBand({min 20, max 60}, 44100, 1024)` it returns `{0, 2}`. -/
theorem C5_mapBand_formula (band : Band) (sr n : ℚ)
    (h1 : 0 ≤ band.min) (h2 : band.min < band.max) (h3 : 0 < sr) (h4 : 0 < n) :
    getBinRange band sr n = ⟨⌊band.min / (sr / n)⌋, ⌈band.max / (sr / n)⌉⟩ ∧
    getBinRange SUB_BASS 44100 1024 = ⟨0, 2⟩ := by
  refine ⟨rfl, ?_⟩
  simp only [getBinRange, SUB_BASS, BinRange.mk.injEq]
  norm_num [Int.floor_eq_iff, Int.ceil_eq_iff]

/-- Witness for C5 at the concrete band of the example: `SUB_BASS` has
`min 20 < max 60` and the configuration `(44100, 1024)` is positive. -/
theorem C5_witness : getBinRange SUB_BASS 44100 1024 = ⟨0, 2⟩ :=
  (C5_mapBand_formula SUB_BASS 44100 1024 (by norm_num [SUB_BASS])
    (by norm_num [SUB_BASS]) (by norm_num) (by norm_num)).2

/-- Counterexample to C2: on the malformed configuration with transform
size 0, the spec-modelled checked mapper fails, but the source's
`getBinRange` happily returns the `BinRange` `{0, 0}` — there is no
validation anywhere in the code, so the claimed fail-fast behaviour is
absent.  (Under IEEE semantics `44100 / 0 = Infinity` and
`20 / Infinity = 0`, giving the same `{0, 0}` as the rational model.) -/
theorem C2_counterexample :
    getBinRangeChecked SUB_BASS 44100 0 = none ∧
    getBinRange SUB_BASS 44100 0 = ⟨0, 0⟩ := by
  constructor
  · simp [getBinRangeChecked]
  · simp only [getBinRange, SUB_BASS, BinRange.mk.injEq]
    norm_num

/-- C2 amended: the bin-mapping operation performs no configuration
validation and never fails: with transform size 0 it returns the
`BinRange` `{0, 0}` for every band, and with a negative transform size or
a negative sample rate it returns `BinRange`s by the same floor/ceil
formula (here `{-1, -1}` for `SUB_BASS`), rather than raising a
configuration error. -/
theorem C2_amended_no_validation (band : Band) :
    getBinRange band 44100 0 = ⟨0, 0⟩ ∧
    getBinRange SUB_BASS 44100 (-1024) = ⟨-1, -1⟩ ∧
    getBinRange SUB_BASS (-44100) 1024 = ⟨-1, -1⟩ := by
  refine ⟨?_, ?_, ?_⟩
  · simp only [getBinRange, BinRange.mk.injEq]
    norm_num
  · simp only [getBinRange, SUB_BASS, BinRange.mk.injEq]
    norm_num [Int.floor_eq_iff, Int.ceil_eq_iff]
  · simp only [getBinRange, SUB_BASS, BinRange.mk.injEq]
    norm_num [Int.floor_eq_iff, Int.ceil_eq_iff]

/-- C8: when the analyzer is not in a listening state, the per-frame
`update` cycle is a no-op: the whole state — energy cache, smoothed
energies, peak states, energy history and history cursor included — is
unchanged. -/
theorem C8_update_noop (s : AnalyzerState) (spectrum : List ℚ)
    (h : s.isListening = false) : update s spectrum = s := by
  simp [update, h]

/-- Witness for C8: the freshly constructed analyzer is not listening and a
cycle on an arbitrary spectrum leaves it unchanged. -/
theorem C8_witness : update initialState [1, 2, 3] = initialState :=
  C8_update_noop initialState [1, 2, 3] rfl

/-- An analyzer state that has completed `init` and `startListening` with
the default configuration (sample rate 44100, transform size 1024). -/
def listeningState : AnalyzerState :=
  { initialState with
    isListening := true
    hasFFT := true
    binRanges := calculateAllBinRanges 44100 1024 }

/-- C6: on every cycle that passes the listening guard, each category's
smoothed energy is updated exactly once, by the exponential moving average
`smoothed + (raw - smoothed) * 0.3` where `raw` is that cycle's weighted
combined energy of the category's member bands. -/
theorem C6_smoothing_ema (s : AnalyzerState) (spectrum : List ℚ)
    (hfft : s.hasFFT = true) (hl : s.isListening = true) :
    (update s spectrum).smoothedEnergy.drums
      = s.smoothedEnergy.drums +
        (calculateWeightedEnergy
          [getAverageEnergy s.binRanges spectrum "DRUMS_LOW",
           getAverageEnergy s.binRanges spectrum "DRUMS_MID",
           getAverageEnergy s.binRanges spectrum "DRUMS_HIGH"] DRUMS_weights
          - s.smoothedEnergy.drums) * (0.3 : ℚ) ∧
    (update s spectrum).smoothedEnergy.vocals
      = s.smoothedEnergy.vocals +
        (calculateWeightedEnergy
          [getAverageEnergy s.binRanges spectrum "VOCALS_LOW",
           getAverageEnergy s.binRanges spectrum "VOCALS_MID",
           getAverageEnergy s.binRanges spectrum "VOCALS_HIGH"] VOCALS_weights
          - s.smoothedEnergy.vocals) * (0.3 : ℚ) ∧
    (update s spectrum).smoothedEnergy.bass
      = s.smoothedEnergy.bass +
        (calculateWeightedEnergy
          [getAverageEnergy s.binRanges spectrum "SUB_BASS",
           getAverageEnergy s.binRanges spectrum "BASS"] BASS_weights
          - s.smoothedEnergy.bass) * (0.3 : ℚ) ∧
    (update s spectrum).smoothedEnergy.highs
      = s.smoothedEnergy.highs +
        (calculateWeightedEnergy
          [getAverageEnergy s.binRanges spectrum "INSTRUMENTS_HIGH",
           getAverageEnergy s.binRanges spectrum "AIR"] HIGHS_weights
          - s.smoothedEnergy.highs) * (0.3 : ℚ) := by
  simp [update, hfft, hl, smoothStep, smoothFactor]

/-- Witness for C6: the started analyzer on a silent three-bin spectrum. -/
theorem C6_witness :
    (update listeningState [0, 0, 0]).smoothedEnergy.drums
      = listeningState.smoothedEnergy.drums +
        (calculateWeightedEnergy
          [getAverageEnergy listeningState.binRanges [0, 0, 0] "DRUMS_LOW",
           getAverageEnergy listeningState.binRanges [0, 0, 0] "DRUMS_MID",
           getAverageEnergy listeningState.binRanges [0, 0, 0] "DRUMS_HIGH"] DRUMS_weights
          - listeningState.smoothedEnergy.drums) * (0.3 : ℚ) ∧
    (update listeningState [0, 0, 0]).smoothedEnergy.vocals
      = listeningState.smoothedEnergy.vocals +
        (calculateWeightedEnergy
          [getAverageEnergy listeningState.binRanges [0, 0, 0] "VOCALS_LOW",
           getAverageEnergy listeningState.binRanges [0, 0, 0] "VOCALS_MID",
           getAverageEnergy listeningState.binRanges [0, 0, 0] "VOCALS_HIGH"] VOCALS_weights
          - listeningState.smoothedEnergy.vocals) * (0.3 : ℚ) ∧
    (update listeningState [0, 0, 0]).smoothedEnergy.bass
      = listeningState.smoothedEnergy.bass +
        (calculateWeightedEnergy
          [getAverageEnergy listeningState.binRanges [0, 0, 0] "SUB_BASS",
           getAverageEnergy listeningState.binRanges [0, 0, 0] "BASS"] BASS_weights
          - listeningState.smoothedEnergy.bass) * (0.3 : ℚ) ∧
    (update listeningState [0, 0, 0]).smoothedEnergy.highs
      = listeningState.smoothedEnergy.highs +
        (calculateWeightedEnergy
          [getAverageEnergy listeningState.binRanges [0, 0, 0] "INSTRUMENTS_HIGH",
           getAverageEnergy listeningState.binRanges [0, 0, 0] "AIR"] HIGHS_weights
          - listeningState.smoothedEnergy.highs) * (0.3 : ℚ) :=
  C6_smoothing_ema listeningState [0, 0, 0] rfl rfl

/-- Helper for C9: a freshly computed peak state either has `isPeak = false`
or carries exactly the current smoothed energy, which then exceeds the
threshold. -/
lemma detectPeakStep_sound (p : PeakState) (c : ℚ) :
    (detectPeakStep p c).isPeak = true →
      (detectPeakStep p c).value = c ∧ c > peakThreshold := by
  rw [detectPeakStep]
  split
  · rename_i h
    intro _
    exact ⟨rfl, h.2⟩
  · intro h
    simp at h

/-- C9: in every state reachable by repeated cycles from a state whose peak
states are all `{value := 0, isPeak := false}` (the constructor state), any
category whose published peak state has `isPeak = true` carries exactly
that category's current smoothed energy as its peak value, and that
smoothed energy strictly exceeds the threshold 0.7. -/
theorem C9_peak_publication_invariant (s0 s : AnalyzerState)
    (hpk : s0.peaks = ⟨⟨0, false⟩, ⟨0, false⟩, ⟨0, false⟩, ⟨0, false⟩⟩)
    (hr : Reachable s0 s) : PeakInvariant s := by
  induction hr with
  | refl => simp [PeakInvariant, hpk]
  | step t spectrum hprev ih =>
      by_cases hg : (!t.hasFFT || !t.isListening) = true
      · simpa [update, hg] using ih
      · simp only [update, if_neg hg, PeakInvariant]
        exact ⟨detectPeakStep_sound _ _, detectPeakStep_sound _ _,
          detectPeakStep_sound _ _, detectPeakStep_sound _ _⟩

/-- Witness for C9: the constructor state itself satisfies the invariant. -/
theorem C9_witness : PeakInvariant initialState :=
  C9_peak_publication_invariant initialState initialState rfl
    (Reachable.refl initialState)

/-- Helper: every term the energy loop reads is an element of the spectrum,
so it inherits the spectrum's bounds. -/
lemma loop_term_bounds (spectrum : List ℚ) (s e : ℤ)
    (hvals : ∀ x ∈ spectrum, 0 ≤ x ∧ x ≤ 255) (hstart : 0 ≤ s) :
    ∀ i ∈ Finset.Ico s (min e (spectrum.length : ℤ)),
      0 ≤ spectrum.getD i.toNat 0 ∧ spectrum.getD i.toNat 0 ≤ 255 := by
  intro i hi
  rw [Finset.mem_Ico] at hi
  have hlt : i < (spectrum.length : ℤ) := lt_of_lt_of_le hi.2 (min_le_right _ _)
  have h0 : 0 ≤ i := le_trans hstart hi.1
  have hn : i.toNat < spectrum.length := by omega
  rw [List.getD_eq_getElem?_getD, List.getElem?_eq_getElem hn, Option.getD_some]
  exact hvals _ (List.getElem_mem hn)

/-- C4: for every spectrum with values in `[0, 255]` and every bin range
with a nonnegative start index, the extractor sums exactly the indices of
`[start, end)` intersected with `[0, length)`, divides by the clamped
count and then by 255; the result always lies in `[0, 1]`, and it is
exactly 0 when the clamped interval is empty. -/
theorem C4_averageEnergy_bounds (spectrum : List ℚ) (r : BinRange)
    (hvals : ∀ x ∈ spectrum, 0 ≤ x ∧ x ≤ 255) (hstart : 0 ≤ r.start) :
    (0 ≤ averageEnergy spectrum r ∧ averageEnergy spectrum r ≤ 1) ∧
    (min r.endIdx (spectrum.length : ℤ) ≤ r.start → averageEnergy spectrum r = 0) ∧
    averageEnergy spectrum r =
      (if 0 < spectrumCount spectrum r.start r.endIdx then
        (∑ i in Finset.Ico (max r.start 0) (min r.endIdx (spectrum.length : ℤ)),
          spectrum.getD i.toNat 0) / (spectrumCount spectrum r.start r.endIdx : ℚ) / 255
      else 0) := by
  have hterm := loop_term_bounds spectrum r.start r.endIdx hvals hstart
  by_cases hc : 0 < spectrumCount spectrum r.start r.endIdx
  · have hcQ : (0 : ℚ) < (spectrumCount spectrum r.start r.endIdx : ℚ) := by
      exact_mod_cast hc
    have hsum0 : 0 ≤ spectrumSum spectrum r.start r.endIdx :=
      Finset.sum_nonneg fun i hi => (hterm i hi).1
    have hsum255 : spectrumSum spectrum r.start r.endIdx
        ≤ (spectrumCount spectrum r.start r.endIdx : ℚ) * 255 := by
      have hcard : (Finset.Ico r.start (min r.endIdx (spectrum.length : ℤ))).card
          = spectrumCount spectrum r.start r.endIdx := by
        rw [Int.card_Ico]; rfl
      calc spectrumSum spectrum r.start r.endIdx
          ≤ (Finset.Ico r.start (min r.endIdx (spectrum.length : ℤ))).card • (255 : ℚ) :=
            Finset.sum_le_card_nsmul _ _ _ fun i hi => (hterm i hi).2
        _ = (spectrumCount spectrum r.start r.endIdx : ℚ) * 255 := by
            rw [hcard, nsmul_eq_mul]
    have havg : averageEnergy spectrum r
        = spectrumSum spectrum r.start r.endIdx
          / (spectrumCount spectrum r.start r.endIdx : ℚ) / 255 := by
      rw [averageEnergy, if_pos hc]
    refine ⟨⟨?_, ?_⟩, ?_, ?_⟩
    · rw [havg]
      exact div_nonneg (div_nonneg hsum0 hcQ.le) (by norm_num)
    · rw [havg, div_div, div_le_one (by positivity)]
      exact hsum255
    · intro hempty
      exfalso
      have : spectrumCount spectrum r.start r.endIdx = 0 := by
        rw [spectrumCount]; omega
      omega
    · rw [if_pos hc, havg, max_eq_left hstart]
      rfl
  · have havg : averageEnergy spectrum r = 0 := by
      rw [averageEnergy, if_neg hc]
    exact ⟨⟨by rw [havg], by rw [havg]; norm_num⟩, fun _ => havg, by rw [if_neg hc, havg]⟩

/-- Witness for C4 at the spec's own example: spectrum `[100, 100, 0]`,
range `{0, 2}` (values in `[0, 255]`, nonnegative start). -/
theorem C4_witness :
    (0 ≤ averageEnergy [100, 100, 0] ⟨0, 2⟩ ∧ averageEnergy [100, 100, 0] ⟨0, 2⟩ ≤ 1) ∧
    (min (2 : ℤ) (([100, 100, 0] : List ℚ).length : ℤ) ≤ 0 →
      averageEnergy [100, 100, 0] ⟨0, 2⟩ = 0) ∧
    averageEnergy [100, 100, 0] ⟨0, 2⟩ =
      (if 0 < spectrumCount [100, 100, 0] 0 2 then
        (∑ i in Finset.Ico (max (0 : ℤ) 0) (min (2 : ℤ) (([100, 100, 0] : List ℚ).length : ℤ)),
          ([100, 100, 0] : List ℚ).getD i.toNat 0) / (spectrumCount [100, 100, 0] 0 2 : ℚ) / 255
      else 0) :=
  C4_averageEnergy_bounds [100, 100, 0] ⟨0, 2⟩
    (by intro x hx; fin_cases hx <;> norm_num) (by norm_num)

/-- An initialized analyzer whose bin map sends `SUB_BASS` to the range
`{0, 4}`, used to exercise `getBandEnergy` on a short spectrum. -/
def bandEnergyState : AnalyzerState :=
  { initialState with
    hasFFT := true
    binRanges := [("SUB_BASS", ⟨0, 4⟩)] }

/-- Helper: every `getD` read of the all-zero two-bin spectrum is zero. -/
lemma getD_zero_spectrum (n : ℕ) : ([0, 0] : List ℚ).getD n 0 = 0 := by
  match n with
  | 0 => rfl
  | 1 => rfl
  | n + 2 => rfl

/-- Counterexample to C10's difference clause: on the all-zero spectrum
`[0, 0]` with range `{0, 4}` — whose end index 4 exceeds the spectrum
length 2 — `getBandEnergy` and `255 ×` the internal clamped average are
both 0, so they do NOT differ even though the range overruns the
spectrum. -/
theorem C10_counterexample :
    (([0, 0] : List ℚ).length : ℤ) < (4 : ℤ) ∧
    getBandEnergy bandEnergyState [0, 0] "SUB_BASS"
      = 255 * averageEnergy [0, 0] ⟨0, 4⟩ := by
  constructor
  · norm_num
  · have hsum : spectrumSum [0, 0] 0 4 = 0 :=
      Finset.sum_eq_zero fun i _ => getD_zero_spectrum i.toNat
    have h1 : getBandEnergy bandEnergyState [0, 0] "SUB_BASS" = 0 := by
      rw [getBandEnergy]
      norm_num [bandEnergyState, initialState, List.lookup, hsum]
    have h2 : averageEnergy [0, 0] ⟨0, 4⟩ = 0 := by
      rw [averageEnergy]
      norm_num [spectrumCount, hsum]
    rw [h1, h2, mul_zero]

/-- C10 amended: `getBandEnergy` returns the clamped sum divided by the
UNclamped width `end - start` with no 255 normalisation (so it reports on
the 0–255 scale); it returns 0 when `end ≤ start` or the band name is
unknown; and whenever `end` exceeds the spectrum length AND the clamped
sum is positive, its result is strictly below `255 ×` the clamped average
computed by the internal extractor (the original claim's "differs
whenever `end` exceeds the length" fails when the clamped sum is 0). -/
theorem C10_getBandEnergy_unclamped (s : AnalyzerState) (spectrum : List ℚ)
    (bandName : String) (r : BinRange) (hfft : s.hasFFT = true)
    (hlk : s.binRanges.lookup bandName = some r) (hstart : 0 ≤ r.start) :
    (getBandEnergy s spectrum bandName =
      if 0 < r.endIdx - r.start then
        spectrumSum spectrum r.start r.endIdx / ((r.endIdx - r.start : ℤ) : ℚ)
      else 0) ∧
    (r.endIdx ≤ r.start → getBandEnergy s spectrum bandName = 0) ∧
    (∀ nm, s.binRanges.lookup nm = none → getBandEnergy s spectrum nm = 0) ∧
    ((spectrum.length : ℤ) < r.endIdx →
      0 < spectrumSum spectrum r.start r.endIdx →
      getBandEnergy s spectrum bandName < 255 * averageEnergy spectrum r) := by
  have hbe : getBandEnergy s spectrum bandName =
      if 0 < r.endIdx - r.start then
        spectrumSum spectrum r.start r.endIdx / ((r.endIdx - r.start : ℤ) : ℚ)
      else 0 := by
    rw [getBandEnergy, hlk]
    simp [hfft]
  refine ⟨hbe, ?_, ?_, ?_⟩
  · intro h
    rw [hbe, if_neg (by omega)]
  · intro nm hnone
    rw [getBandEnergy, hnone]
    simp [hfft]
  · intro hlen hsum
    have hne : r.start < min r.endIdx (spectrum.length : ℤ) := by
      by_contra hge
      push_neg at hge
      rw [spectrumSum, Finset.Ico_eq_empty (by omega), Finset.sum_empty] at hsum
      exact lt_irrefl 0 hsum
    have hmin : min r.endIdx (spectrum.length : ℤ) = (spectrum.length : ℤ) :=
      min_eq_right hlen.le
    have hcpos : 0 < spectrumCount spectrum r.start r.endIdx := by
      rw [spectrumCount]; omega
    have hcne : ((spectrumCount spectrum r.start r.endIdx : ℕ) : ℚ) ≠ 0 := by
      exact_mod_cast Nat.pos_iff_ne_zero.mp hcpos
    have h255 : 255 * averageEnergy spectrum r
        = spectrumSum spectrum r.start r.endIdx
          / ((spectrumCount spectrum r.start r.endIdx : ℕ) : ℚ) := by
      rw [averageEnergy, if_pos hcpos]
      field_simp
      ring
    have hb : ((spectrumCount spectrum r.start r.endIdx : ℕ) : ℚ)
        = (((spectrum.length : ℤ) - r.start : ℤ) : ℚ) := by
      rw [spectrumCount, hmin]
      have h0 : (0 : ℤ) ≤ (spectrum.length : ℤ) - r.start := by omega
      exact_mod_cast congrArg (fun z : ℤ => (z : ℚ)) (Int.toNat_of_nonneg h0)
    rw [hbe, if_pos (by omega), h255]
    apply div_lt_div_of_pos_left hsum
    · rw [hb]
      exact_mod_cast (by omega : (0 : ℤ) < (spectrum.length : ℤ) - r.start)
    · rw [hb]
      exact_mod_cast (by omega : (spectrum.length : ℤ) - r.start < r.endIdx - r.start)

/-- Witness for C10 on the initialized test state with spectrum
`[100, 100]` and the looked-up range `{0, 4}`. -/
theorem C10_witness :
    (getBandEnergy bandEnergyState [100, 100] "SUB_BASS" =
      if 0 < (4 : ℤ) - 0 then
        spectrumSum [100, 100] 0 4 / (((4 : ℤ) - 0 : ℤ) : ℚ)
      else 0) ∧
    ((4 : ℤ) ≤ 0 → getBandEnergy bandEnergyState [100, 100] "SUB_BASS" = 0) ∧
    (∀ nm, bandEnergyState.binRanges.lookup nm = none →
      getBandEnergy bandEnergyState [100, 100] nm = 0) ∧
    ((([100, 100] : List ℚ).length : ℤ) < (4 : ℤ) →
      0 < spectrumSum [100, 100] 0 4 →
      getBandEnergy bandEnergyState [100, 100] "SUB_BASS"
        < 255 * averageEnergy [100, 100] ⟨0, 4⟩) :=
  C10_getBandEnergy_unclamped bandEnergyState [100, 100] "SUB_BASS" ⟨0, 4⟩
    rfl (by norm_num [bandEnergyState, initialState, List.lookup]) (by norm_num)

/-- Iterating the smoothing update with the raw input held constant at `v`
(`smoothIter s0 v n` is the smoothed value after `n` cycles from `s0`). -/
def smoothIter (s0 v : ℚ) : ℕ → ℚ
  | 0 => s0
  | n + 1 => smoothStep (smoothIter s0 v n) v

/-- Helper for C7: the distance to the target contracts by the factor
`1 - α = 0.7` exactly, every cycle. -/
lemma smoothIter_sub (s0 v : ℚ) (n : ℕ) :
    smoothIter s0 v n - v = (0.7 : ℚ) ^ n * (s0 - v) := by
  induction n with
  | zero => simp [smoothIter]
  | succ n ih =>
      have hstep : smoothIter s0 v (n + 1) - v
          = (smoothIter s0 v n - v) * (1 - smoothFactor) := by
        rw [smoothIter, smoothStep]
        ring
      rw [hstep, ih, smoothFactor]
      ring_nf

/-- C7: holding the raw input constant at `v`, the smoothed sequence
converges monotonically toward `v`: each cycle's distance to `v` is at most
the previous cycle's, and the distance eventually falls below every
positive tolerance. -/
theorem C7_smoothing_convergence (s0 v : ℚ) :
    (∀ n, |smoothIter s0 v (n + 1) - v| ≤ |smoothIter s0 v n - v|) ∧
    (∀ ε : ℚ, 0 < ε → ∃ N, ∀ t, N ≤ t → |smoothIter s0 v t - v| < ε) := by
  have habs : ∀ n, |smoothIter s0 v n - v| = (0.7 : ℚ) ^ n * |s0 - v| := by
    intro n
    rw [smoothIter_sub, abs_mul, abs_pow, abs_of_nonneg (by norm_num : (0:ℚ) ≤ 0.7)]
  constructor
  · intro n
    rw [habs, habs, pow_succ]
    have h1 : (0.7 : ℚ) ^ n * 0.7 ≤ (0.7 : ℚ) ^ n * 1 := by
      apply mul_le_mul_of_nonneg_left (by norm_num) (by positivity)
    calc (0.7 : ℚ) ^ n * 0.7 * |s0 - v| ≤ (0.7 : ℚ) ^ n * 1 * |s0 - v| :=
          mul_le_mul_of_nonneg_right h1 (abs_nonneg _)
      _ = (0.7 : ℚ) ^ n * |s0 - v| := by ring
  · intro ε hε
    rcases eq_or_lt_of_le (abs_nonneg (s0 - v)) with hd | hd
    · refine ⟨0, fun t _ => ?_⟩
      rw [habs, ← hd, mul_zero]
      exact hε
    · obtain ⟨N, hN⟩ := exists_pow_lt_of_lt_one
        (div_pos hε hd) (by norm_num : (0.7 : ℚ) < 1)
      refine ⟨N, fun t ht => ?_⟩
      rw [habs]
      have hle : (0.7 : ℚ) ^ t ≤ (0.7 : ℚ) ^ N :=
        pow_le_pow_of_le_one (by norm_num) (by norm_num) ht
      calc (0.7 : ℚ) ^ t * |s0 - v| ≤ (0.7 : ℚ) ^ N * |s0 - v| :=
            mul_le_mul_of_nonneg_right hle (abs_nonneg _)
        _ < (ε / |s0 - v|) * |s0 - v| :=
            mul_lt_mul_of_pos_right hN hd
        _ = ε := div_mul_cancel₀ ε (ne_of_gt hd)

/-- Witness for C7 at `s0 = 0`, `v = 1`: one monotone step and the
eventual `1/100`-closeness. -/
theorem C7_witness :
    |smoothIter 0 1 1 - 1| ≤ |smoothIter 0 1 0 - 1| ∧
    ∃ N, ∀ t, N ≤ t → |smoothIter 0 1 t - 1| < (1 / 100 : ℚ) :=
  ⟨(C7_smoothing_convergence 0 1).1 0,
   (C7_smoothing_convergence 0 1).2 (1 / 100) (by norm_num)⟩

end MusicViz
